import Mathlib

/-!
Shallow embedding of the GameDB query engine (src/game-space.js).

Modelling conventions:
* Entity ids are natural numbers (the source uses uuid strings; only id
  equality matters to the engine, so any infinite type with decidable
  equality is faithful).
* JavaScript object maps are association lists with first-match lookup,
  mirroring single-slot-per-key object semantics.
* JavaScript Sets are insertion-ordered duplicate-free lists: `add` appends
  when the element is absent, `delete` removes it, iteration follows list
  order, exactly the iteration contract of a JavaScript Set.
* Field values are modelled by `JSValue` (string or integer).  JavaScript
  coerces object keys to strings, so the field index is keyed by
  `JSValue.toKey`, exactly as `fieldIndexes[field][value]` coerces `value`.
* The external spatial index (rbush) is out of scope per the design document
  and is modelled at its adapter contract: a list of (id, box) entries,
  range search by inclusive box intersection, removal of the first entry
  with a matching id, insertion by appending.
* JavaScript exceptions propagate while mutations made before the throw
  persist, so every mutating operation returns a pair of an optional error
  and the post-call state.  The error type carries the generic `typeError`
  that the source can actually raise (property access on undefined) plus
  the named error classes of the design document, which lets theorems state
  which of those the code does or does not produce.
-/

namespace GameSpace

/-- A field value: string or integer, as used by the entity attributes. -/
inductive JSValue
  | str (s : String)
  | num (n : Int)
deriving DecidableEq, Repr

/-- JavaScript object-key coercion of a value, as applied by
`fieldIndexes[field][value]` in the source. -/
def JSValue.toKey : JSValue → String
  | .str s => s
  | .num n => toString n

/-- An axis-aligned bounding box, the shape returned by `getSpatialHandle`. -/
structure Box where
  minX : Int
  minY : Int
  maxX : Int
  maxY : Int
deriving DecidableEq, Repr

/-- rbush's `intersects(a, b)` test with `a` the query bounds: inclusive on
all edges. -/
def boxIntersects (a b : Box) : Bool :=
  b.minX ≤ a.maxX && b.minY ≤ a.maxY && b.maxX ≥ a.minX && b.maxY ≥ a.minY

/-- An entity: unique id, indexed attribute map, bounding box.  Attribute
lookup models JavaScript property access on the indexed fields. -/
structure Entity where
  id : Nat
  attrs : List (String × JSValue)
  box : Box
deriving DecidableEq, Repr

/-- First-match association-list lookup, the model of reading a property of
a JavaScript object. -/
def alGet [DecidableEq α] (k : α) : List (α × β) → Option β
  | [] => none
  | (k', v) :: rest => if k = k' then some v else alGet k rest

/-- Association-list write, the model of assigning a property of a
JavaScript object: replaces the first binding or appends a new one. -/
def alSet [DecidableEq α] (k : α) (v : β) : List (α × β) → List (α × β)
  | [] => [(k, v)]
  | (k', v') :: rest => if k = k' then (k, v) :: rest else (k', v') :: alSet k v rest

/-- Association-list key removal, the model of the `delete` operator. -/
def alDelete [DecidableEq α] (k : α) : List (α × β) → List (α × β)
  | [] => []
  | (k', v') :: rest => if k = k' then alDelete k rest else (k', v') :: alDelete k rest

/-- JavaScript `Set.add`: append the element when absent. -/
def setAdd (x : Nat) (l : List Nat) : List Nat :=
  if x ∈ l then l else l ++ [x]

/-- Attribute read `entity[field]`; `none` models `undefined`. -/
def Entity.attr (e : Entity) (f : String) : Option JSValue :=
  alGet f e.attrs

/-- The object key under which `_insertIntoFieldIndex` files the entity for
field `f`: the coerced attribute value, or the key of `undefined`. -/
def attrKey (e : Entity) (f : String) : String :=
  match e.attr f with
  | some v => v.toKey
  | none => "undefined"

/-- One record held by the spatial index: the id plus the spread of the
entity's spatial handle, as built by `_insertIntoSpatialIndex`. -/
structure SpatialEntry where
  id : Nat
  box : Box
deriving DecidableEq, Repr

/-- The engine's reusable scratch pool (`this.pool` in the source).  Each
JavaScript Set is an insertion-ordered duplicate-free id list. -/
structure Pool where
  fields : List (List Nat)
  spatial : List Nat
  ids : List Nat
  resultReference : Option (List Nat)
deriving DecidableEq, Repr

/-- `_clearPool`: the pool with every container cleared. -/
def emptyPool : Pool :=
  { fields := [], spatial := [], ids := [], resultReference := none }

/-- The full engine state: configuration, the three persistent indexes, and
the scratch pool. -/
structure DB where
  fieldsToIndex : List String
  fieldIndexes : List (String × List (String × List Nat))
  byId : List (Nat × Entity)
  spatial : List SpatialEntry
  pool : Pool
deriving DecidableEq, Repr

/-- The `GameDB` constructor: one empty sub-index per configured field. -/
def GameDB.new (fieldsToIndex : List String) : DB :=
  { fieldsToIndex := fieldsToIndex
    fieldIndexes := fieldsToIndex.map (fun f => (f, []))
    byId := []
    spatial := []
    pool := emptyPool }

/-- Errors.  `typeError` is the generic JavaScript TypeError raised by
property access on `undefined`; the remaining constructors are the named
error classes of the design document's taxonomy, present so that theorems
can state which of them the engine does or does not raise. -/
inductive Err
  | typeError
  | duplicateIdError
  | notFoundError
  | unknownFieldError
  | unknownFieldValueError
deriving DecidableEq, Repr

/-- `_insertIntoIdIndex`: `byId[entity.id] = entity`, no duplicate check. -/
def insertIntoIdIndex (s : DB) (e : Entity) : DB :=
  { s with byId := alSet e.id e s.byId }

/-- The loop body of `_insertIntoFieldIndex`: for each configured field,
add the id to the set keyed by the coerced attribute value, creating a
fresh singleton set if absent.  Reading a missing sub-index map raises a
TypeError, with the maps updated so far kept (exception semantics). -/
def insertFieldLoop (e : Entity) :
    List String → List (String × List (String × List Nat)) →
    Option Err × List (String × List (String × List Nat))
  | [], fi => (none, fi)
  | f :: rest, fi =>
    match alGet f fi with
    | none => (some .typeError, fi)
    | some m =>
      let key := attrKey e f
      let m' :=
        match alGet key m with
        | none => alSet key [e.id] m
        | some st => alSet key (setAdd e.id st) m
      insertFieldLoop e rest (alSet f m' fi)

/-- `insert(entity)`: id index, then field index, then spatial index.  A
TypeError in the field loop leaves the id index already written and skips
the spatial insertion. -/
def insertE (s : DB) (e : Entity) : Option Err × DB :=
  let s1 := insertIntoIdIndex s e
  match insertFieldLoop e s1.fieldsToIndex s1.fieldIndexes with
  | (some er, fi) => (some er, { s1 with fieldIndexes := fi })
  | (none, fi) =>
    let s2 := { s1 with fieldIndexes := fi }
    (none, { s2 with spatial := s2.spatial ++ [⟨e.id, e.box⟩] })

/-- `_removeFromSpatialIndex`: rbush removal with the id-equality
comparator, removing the first stored entry whose id matches. -/
def removeFromSpatial (id : Nat) : List SpatialEntry → List SpatialEntry
  | [] => []
  | en :: rest => if en.id = id then rest else en :: removeFromSpatial id rest

/-- The field-index purge loop of `remove`: for each configured field,
`fieldIndexes[field][value].delete(entity.id)`.  A missing sub-index map or
a missing value slot raises a TypeError, keeping the deletions already
performed. -/
def removeFieldLoop (e : Entity) :
    List String → List (String × List (String × List Nat)) →
    Option Err × List (String × List (String × List Nat))
  | [], fi => (none, fi)
  | f :: rest, fi =>
    match alGet f fi with
    | none => (some .typeError, fi)
    | some m =>
      let key := attrKey e f
      match alGet key m with
      | none => (some .typeError, fi)
      | some st => removeFieldLoop e rest (alSet f (alSet key (st.erase e.id) m) fi)

/-- `remove(entity)`: deletes the byId entry first, then purges the field
index, then the spatial index.  No presence check is performed; a TypeError
in the field loop leaves the byId deletion and earlier field deletions in
place and skips the spatial removal. -/
def removeE (s : DB) (e : Entity) : Option Err × DB :=
  let s1 := { s with byId := alDelete e.id s.byId }
  match removeFieldLoop e s1.fieldsToIndex s1.fieldIndexes with
  | (some er, fi) => (some er, { s1 with fieldIndexes := fi })
  | (none, fi) =>
    (none, { s1 with fieldIndexes := fi, spatial := removeFromSpatial e.id s1.spatial })

/-- `move(entity)`: spatial removal followed by spatial insertion; no
presence check and no other index is touched. -/
def moveE (s : DB) (e : Entity) : Option Err × DB :=
  (none, { s with spatial := removeFromSpatial e.id s.spatial ++ [⟨e.id, e.box⟩] })

/-- `all()`: every entity currently in the identity store. -/
def allE (s : DB) : List Entity :=
  s.byId.map (fun p => p.2)

/-- `nuke()`: clears the spatial index, resets the identity store, and
rebuilds an empty sub-index per configured field; the pool is untouched. -/
def nukeE (s : DB) : DB :=
  { s with byId := []
           fieldIndexes := s.fieldsToIndex.map (fun f => (f, []))
           spatial := [] }

/-- `_spatialSearch(bounds)`: add to the pool's spatial set the id of every
stored entry whose box intersects the bounds. -/
def spatialHits (entries : List SpatialEntry) (b : Box) : List Nat :=
  ((entries.filter (fun en => boxIntersects b en.box)).map (fun en => en.id)).foldl
    (fun acc i => setAdd i acc) []

/-- The per-criterion result slice `fieldIndexes[field][value] || emptySet`
for a configured field (a non-configured field yields the empty set here;
`_fieldSearch` itself raises before ever using it in that case). -/
def fieldSet (s : DB) (f : String) (v : JSValue) : List Nat :=
  match alGet f s.fieldIndexes with
  | none => []
  | some m => (alGet v.toKey m).getD []

/-- `_fieldSearch(query)`: walk the query criteria in iteration order,
pushing a reference to the matching id set for each; accessing a
non-configured field raises a TypeError with the slices pushed so far
kept. -/
def fieldSearchLoop (fi : List (String × List (String × List Nat))) :
    List (String × JSValue) → List (List Nat) → Option Err × List (List Nat)
  | [], acc => (none, acc)
  | (f, v) :: rest, acc =>
    match alGet f fi with
    | none => (some .typeError, acc)
    | some m => fieldSearchLoop fi rest (acc ++ [(alGet v.toKey m).getD []])

/-- The smallest-set scan of the intersection planner: starting from a
current best set and its index, walk the remaining sets keeping the first
strictly smaller one (`field.size < smallestSet.size`). -/
def pickPivot : List Nat → Int → Nat → List (List Nat) → List Nat × Int
  | best, bi, _, [] => (best, bi)
  | best, bi, i, f :: rest =>
    if f.length < best.length then pickPivot f (Int.ofNat i) (i + 1) rest
    else pickPivot best bi (i + 1) rest

/-- The inner membership loop over the field slices: every slice at an
index other than the pivot index must contain the id. -/
def allFieldsExcept (bi : Int) (id : Nat) : Nat → List (List Nat) → Bool
  | _, [] => true
  | i, f :: rest =>
    (decide (Int.ofNat i = bi) || decide (id ∈ f)) && allFieldsExcept bi id (i + 1) rest

/-- The combined spatial-and-field intersection of `search`: pivot chosen
among the spatial set (index -1) and the field slices; each pivot id is
collected, in pivot order, when every other set contains it (the pivot is
duplicate-free, so collecting into the ids set is a filter). -/
def intersectBQ (spatialS : List Nat) (fields : List (List Nat)) : List Nat :=
  let p := pickPivot spatialS (-1) 0 fields
  p.1.filter (fun id =>
    (decide (p.2 = -1) || decide (id ∈ spatialS)) && allFieldsExcept p.2 id 0 fields)

/-- The multi-field intersection of `search` (query-only, two or more
criteria): pivot chosen among the field slices alone. -/
def intersectQ (fields : List (List Nat)) : List Nat :=
  match fields with
  | [] => []
  | f0 :: rest =>
    let p := pickPivot f0 0 1 rest
    p.1.filter (fun id => allFieldsExcept p.2 id 0 (f0 :: rest))

/-- The result of a `search` call: the propagated error if any, the
post-call engine state, and the contents of the caller's output buffer
(each pushed element is `byId[id]`, which is `undefined` — `none` — when
the id has no identity-store entry). -/
structure SearchRes where
  err : Option Err
  db : DB
  out : List (Option Entity)
deriving DecidableEq, Repr

/-- `_resolve`: push `byId[id]` for every id of the final result set, in
the set's insertion order. -/
def resolveIds (byId : List (Nat × Entity)) (ids : List Nat) : List (Option Entity) :=
  ids.map (fun i => alGet i byId)

/-- The branch structure of `search` after the partial results are in the
pool: intersection when both kinds were requested and both produced
something, otherwise the direct-reference shortcuts, then `_resolve` on
`resultReference || ids`. -/
def searchPlan (s : DB) (hasBounds hasQuery : Bool) : SearchRes :=
  let p := s.pool
  let p' :=
    if hasBounds && hasQuery then
      if 0 < p.fields.length ∧ 0 < p.spatial.length then
        { p with ids := intersectBQ p.spatial p.fields }
      else p
    else if hasBounds then
      { p with resultReference := some p.spatial }
    else if hasQuery then
      if p.fields.length = 1 then
        { p with resultReference := some (p.fields.headD []) }
      else if 0 < p.fields.length then
        { p with ids := intersectQ p.fields }
      else p
    else p
  let s' := { s with pool := p' }
  ⟨none, s', resolveIds s'.byId (p'.resultReference.getD p'.ids)⟩

/-- `search(criteria, results)`: clear the buffer and pool, run the spatial
and field searches that were requested, then plan and resolve.  A TypeError
from the field search propagates with the buffer still empty and the pool
holding the partial slices. -/
def searchE (s : DB) (bounds : Option Box) (query : Option (List (String × JSValue))) :
    SearchRes :=
  let s1 := { s with pool := emptyPool }
  let s2 :=
    match bounds with
    | some b => { s1 with pool := { s1.pool with spatial := spatialHits s1.spatial b } }
    | none => s1
  match query with
  | some q =>
    match fieldSearchLoop s2.fieldIndexes q [] with
    | (some er, acc) => ⟨some er, { s2 with pool := { s2.pool with fields := acc } }, []⟩
    | (none, sets) =>
      searchPlan { s2 with pool := { s2.pool with fields := sets } } bounds.isSome true
  | none => searchPlan s2 bounds.isSome false

/-- The final id set of a search result, `resultReference || ids` read back
from the returned pool. -/
def finalIdsOf (r : SearchRes) : List Nat :=
  r.db.pool.resultReference.getD r.db.pool.ids

/-- Identity-store coherence: every stored binding maps an id to an entity
carrying that id (true of every state built by `insert`). -/
def IdCoherentB (s : DB) : Bool :=
  s.byId.all (fun p => p.2.id == p.1)

/-- Spatial coverage: every spatial entry's id has an identity-store
binding. -/
def SpatialCoveredB (s : DB) : Bool :=
  s.spatial.all (fun en => (alGet en.id s.byId).isSome)

/-- Field coverage: every id filed in any field-index slot has an
identity-store binding. -/
def FieldCoveredB (s : DB) : Bool :=
  s.fieldIndexes.all (fun fm =>
    fm.2.all (fun ks => ks.2.all (fun i => (alGet i s.byId).isSome)))

/-- Every configured field has a sub-index map, as established by the
constructor and preserved by every operation. -/
def FieldsPresentB (s : DB) : Bool :=
  s.fieldsToIndex.all (fun f => (alGet f s.fieldIndexes).isSome)

/-- The sub-index maps are exactly the configured fields: present for every
configured field and for nothing else. -/
def KeysExactB (s : DB) : Bool :=
  FieldsPresentB s && s.fieldIndexes.all (fun p => decide (p.1 ∈ s.fieldsToIndex))

/-- The data-model invariants of the design document, bundled. -/
def WfB (s : DB) : Bool :=
  IdCoherentB s && SpatialCoveredB s && FieldCoveredB s && FieldsPresentB s

/-- The pivot invariant: the scan returns either the spatial set tagged -1,
or one of the field slices tagged with its index. -/
def PivotInv (ctx : List (List Nat)) (spatialS : List Nat)
    (p : List Nat × Int) : Prop :=
  (p.2 = -1 ∧ p.1 = spatialS) ∨
    (∃ n : Nat, p.2 = Int.ofNat n ∧ n < ctx.length ∧ ctx.getD n [] = p.1)

/-! Concrete sample states used by witnesses and counterexamples. -/

/-- An animal entity for the combined-search sample. -/
def entA1 : Entity := ⟨1, [("type", .str "animal")], ⟨0, 0, 5, 5⟩⟩

/-- A plant entity for the combined-search sample. -/
def entA2 : Entity := ⟨2, [("type", .str "plant")], ⟨10, 10, 12, 12⟩⟩

/-- Sample engine for the combined-search claim: one indexed field, two
entities. -/
def dbA : DB := (insertE (insertE (GameDB.new ["type"]) entA1).2 entA2).2

/-- A black animal for the multi-field sample. -/
def entB1 : Entity := ⟨1, [("type", .str "animal"), ("color", .str "black")], ⟨0, 0, 5, 5⟩⟩

/-- A white animal for the multi-field sample. -/
def entB2 : Entity := ⟨2, [("type", .str "animal"), ("color", .str "white")], ⟨12, 13, 14, 15⟩⟩

/-- A green plant for the multi-field sample. -/
def entB3 : Entity := ⟨3, [("type", .str "plant"), ("color", .str "green")], ⟨5, 5, 12, 12⟩⟩

/-- Sample engine for the multi-field claim: two indexed fields, three
entities. -/
def dbB : DB :=
  (insertE (insertE (insertE (GameDB.new ["type", "color"]) entB1).2 entB2).2 entB3).2

/-- An entity with no indexed attributes sitting at the origin. -/
def entC : Entity := ⟨0, [], ⟨0, 0, 1, 1⟩⟩

/-- Sample engine with no indexed fields and one stored entity. -/
def dbC : DB := (insertE (GameDB.new []) entC).2

/-- An entity whose indexed attribute is the number 5. -/
def entD : Entity := ⟨0, [("f", .num 5)], ⟨0, 0, 1, 1⟩⟩

/-- Sample engine holding only `entD`, indexing field f. -/
def dbD : DB := (insertE (GameDB.new ["f"]) entD).2

/-- An entity with id 0 and attribute value 1. -/
def entE1 : Entity := ⟨0, [("f", .num 1)], ⟨0, 0, 1, 1⟩⟩

/-- A different entity carrying the same id 0. -/
def entE2 : Entity := ⟨0, [("f", .num 2)], ⟨3, 3, 4, 4⟩⟩

/-- Sample engine holding `entE1`, used for the duplicate-insert claim. -/
def dbE : DB := (insertE (GameDB.new ["f"]) entE1).2

/-- A fresh empty engine with no indexed fields. -/
def dbF : DB := GameDB.new []

/-- An entity used with two indexed fields a and b. -/
def entG : Entity := ⟨0, [("a", .num 1), ("b", .num 2)], ⟨0, 0, 1, 1⟩⟩

/-- An entity with the same id and a-value as `entG` but a b-value that has
no field-index slot. -/
def entG' : Entity := ⟨0, [("a", .num 1), ("b", .num 3)], ⟨0, 0, 1, 1⟩⟩

/-- Sample engine holding `entG`, indexing fields a and b. -/
def dbG : DB := (insertE (GameDB.new ["a", "b"]) entG).2

/-- The stored entity `entC` relocated to a new position. -/
def entCmoved : Entity := ⟨0, [], ⟨7, 7, 8, 8⟩⟩

/-! Helper lemmas about the association-list model. -/

lemma alGet_alSet [DecidableEq α] (k k' : α) (v : β) :
    ∀ l : List (α × β), alGet k (alSet k' v l) = if k = k' then some v else alGet k l := by
  intro l
  induction l with
  | nil =>
    simp [alGet, alSet]
  | cons p rest ih =>
    obtain ⟨a, b⟩ := p
    simp only [alSet]
    by_cases h1 : k' = a
    · subst h1
      by_cases h2 : k = k'
      · subst h2; simp [alGet]
      · simp [alGet, h2]
    · rw [if_neg h1]
      by_cases h2 : k = a
      · subst h2
        have h3 : ¬ k = k' := fun h => h1 h.symm
        simp [alGet, h3]
      · simp [alGet, h2, ih]

lemma alGet_mem [DecidableEq α] (k : α) (v : β) :
    ∀ l : List (α × β), alGet k l = some v → (k, v) ∈ l := by
  intro l
  induction l with
  | nil => intro h; simp [alGet] at h
  | cons p rest ih =>
    obtain ⟨a, b⟩ := p
    intro h
    by_cases h2 : k = a
    · subst h2
      simp [alGet] at h
      simp [h]
    · simp [alGet, h2] at h
      exact List.mem_cons_of_mem _ (ih h)

lemma alGet_isSome_iff [DecidableEq α] (k : α) (l : List (α × β)) :
    (alGet k l).isSome = true ↔ ∃ v, alGet k l = some v := by
  cases h : alGet k l <;> simp [h]

/-! Helper lemmas about the ordered-set model. -/

lemma setAdd_mem (x y : Nat) (l : List Nat) : x ∈ setAdd y l ↔ x = y ∨ x ∈ l := by
  by_cases h : y ∈ l
  · simp only [setAdd, if_pos h]
    constructor
    · exact Or.inr
    · rintro (rfl | hx)
      · exact h
      · exact hx
  · simp [setAdd, if_neg h, List.mem_append, or_comm]

lemma foldl_setAdd_mem (x : Nat) :
    ∀ (l acc : List Nat), x ∈ l.foldl (fun acc2 i => setAdd i acc2) acc ↔ x ∈ acc ∨ x ∈ l := by
  intro l
  induction l with
  | nil => intro acc; simp
  | cons a l ih =>
    intro acc
    simp only [List.foldl_cons]
    rw [ih, setAdd_mem]
    simp only [List.mem_cons]
    tauto

lemma spatialHits_mem (entries : List SpatialEntry) (b : Box) (i : Nat) :
    i ∈ spatialHits entries b ↔
      ∃ en ∈ entries, boxIntersects b en.box = true ∧ en.id = i := by
  rw [spatialHits, foldl_setAdd_mem]
  simp only [List.not_mem_nil, false_or, List.mem_map, List.mem_filter]
  constructor
  · rintro ⟨en, ⟨hmem, hint⟩, hid⟩
    exact ⟨en, hmem, hint, hid⟩
  · rintro ⟨en, hmem, hint, hid⟩
    exact ⟨en, ⟨hmem, hint⟩, hid⟩

/-! Helper lemmas about list indexing used by the pivot scan. -/

lemma drop_cons_getD (l : List α) (d : α) :
    ∀ i f rest, l.drop i = f :: rest →
      l.getD i d = f ∧ l.drop (i + 1) = rest ∧ i < l.length := by
  induction l with
  | nil => intro i f rest h; simp at h
  | cons x xs ih =>
    intro i f rest h
    cases i with
    | zero =>
      simp at h
      obtain ⟨h1, h2⟩ := h
      subst h1; subst h2
      simp [List.getD]
    | succ j =>
      have h' : xs.drop j = f :: rest := by simpa using h
      obtain ⟨h1, h2, h3⟩ := ih j f rest h'
      refine ⟨by simpa using h1, by simpa using h2, ?_⟩
      simp only [List.length_cons]
      omega

lemma getD_mem_of_lt (l : List (List Nat)) (j : Nat) (h : j < l.length) :
    l.getD j [] ∈ l := by
  rw [List.getD_eq_getElem l [] h]
  exact List.getElem_mem h

lemma mem_iff_getD (l : List (List Nat)) (f : List Nat) :
    f ∈ l ↔ ∃ j, j < l.length ∧ l.getD j [] = f := by
  constructor
  · intro h
    obtain ⟨i, hi, he⟩ := List.mem_iff_getElem.mp h
    exact ⟨i, hi, by rw [List.getD_eq_getElem l [] hi]; exact he⟩
  · rintro ⟨j, hj, he⟩
    rw [← he]
    exact getD_mem_of_lt l j hj

/-! Correctness of the smallest-set pivot scan. -/

lemma pickPivot_snd_nonneg :
    ∀ (rest : List (List Nat)) (best : List Nat) (bi : Int) (i : Nat),
      0 ≤ bi → 0 ≤ (pickPivot best bi i rest).2 := by
  intro rest
  induction rest with
  | nil => intro best bi i h; simpa [pickPivot] using h
  | cons f rest ih =>
    intro best bi i h
    by_cases hc : f.length < best.length
    · simp only [pickPivot, if_pos hc]
      exact ih f (Int.ofNat i) (i + 1) (Int.ofNat_nonneg i)
    · simp only [pickPivot, if_neg hc]
      exact ih best bi (i + 1) h

lemma pickPivot_spec (ctx : List (List Nat)) (spatialS : List Nat) :
    ∀ (rest : List (List Nat)) (i : Nat) (best : List Nat) (bi : Int),
      ctx.drop i = rest → PivotInv ctx spatialS (best, bi) →
      PivotInv ctx spatialS (pickPivot best bi i rest) := by
  intro rest
  induction rest with
  | nil => intro i best bi _ hinv; simpa [pickPivot] using hinv
  | cons f rest ih =>
    intro i best bi hdrop hinv
    obtain ⟨h1, h2, h3⟩ := drop_cons_getD ctx [] i f rest hdrop
    by_cases hc : f.length < best.length
    · simp only [pickPivot, if_pos hc]
      exact ih (i + 1) f (Int.ofNat i) h2 (Or.inr ⟨i, rfl, h3, h1⟩)
    · simp only [pickPivot, if_neg hc]
      exact ih (i + 1) best bi h2 hinv

/-! The membership loop over all non-pivot slices. -/

lemma allFieldsExcept_spec (bi : Int) (id : Nat) :
    ∀ (rest : List (List Nat)) (i : Nat),
      allFieldsExcept bi id i rest = true ↔
        ∀ j, j < rest.length → (Int.ofNat (i + j) = bi ∨ id ∈ rest.getD j []) := by
  intro rest
  induction rest with
  | nil => intro i; simp [allFieldsExcept]
  | cons f rest ih =>
    intro i
    simp only [allFieldsExcept, Bool.and_eq_true, Bool.or_eq_true, decide_eq_true_eq]
    rw [ih (i + 1)]
    constructor
    · rintro ⟨h0, hrest⟩ j hj
      cases j with
      | zero => simpa using h0
      | succ j' =>
        have hj' : j' < rest.length := by simpa using hj
        have := hrest j' hj'
        simpa [Nat.add_assoc, Nat.add_comm 1 j'] using this
    · intro h
      refine ⟨by simpa using h 0 (by simp), ?_⟩
      intro j hj
      have := h (j + 1) (by simpa using hj)
      simpa [Nat.add_assoc, Nat.add_comm 1 j] using this

/-! Correctness of the two intersection loops: whatever pivot the
smallest-set scan selects, the filtered result is the full intersection. -/

lemma ofNat_ne_neg_one (j : Nat) : Int.ofNat j ≠ -1 := by
  simp only [Int.ofNat_eq_natCast]
  omega

lemma intersectBQ_mem (spatialS : List Nat) (fields : List (List Nat)) (id : Nat) :
    id ∈ intersectBQ spatialS fields ↔ id ∈ spatialS ∧ ∀ f ∈ fields, id ∈ f := by
  have hinv : PivotInv fields spatialS (pickPivot spatialS (-1) 0 fields) :=
    pickPivot_spec fields spatialS fields 0 spatialS (-1) rfl (Or.inl ⟨rfl, rfl⟩)
  simp only [intersectBQ]
  generalize hp : pickPivot spatialS (-1) 0 fields = p at hinv ⊢
  obtain ⟨best, bi⟩ := p
  simp only [PivotInv] at hinv
  simp only [List.mem_filter, Bool.and_eq_true, Bool.or_eq_true, decide_eq_true_eq,
    allFieldsExcept_spec, Nat.zero_add]
  constructor
  · rintro ⟨hbest, hsp, hall⟩
    rcases hinv with ⟨hbi, hbs⟩ | ⟨n, hbi, hlt, hget⟩
    · refine ⟨by rw [← hbs]; exact hbest, ?_⟩
      intro f hf
      obtain ⟨j, hj, hgd⟩ := (mem_iff_getD fields f).mp hf
      rcases hall j hj with h | h
      · rw [hbi] at h
        exact absurd h (ofNat_ne_neg_one j)
      · rw [← hgd]; exact h
    · constructor
      · rcases hsp with h | h
        · rw [hbi] at h
          exact absurd h (ofNat_ne_neg_one n)
        · exact h
      · intro f hf
        obtain ⟨j, hj, hgd⟩ := (mem_iff_getD fields f).mp hf
        rcases hall j hj with h | h
        · have hjn : j = n := by
            rw [hbi] at h
            exact Int.ofNat.inj h
          rw [← hgd, hjn, hget]
          exact hbest
        · rw [← hgd]; exact h
  · rintro ⟨hsp, hf⟩
    refine ⟨?_, Or.inr hsp, ?_⟩
    · rcases hinv with ⟨_, hbs⟩ | ⟨n, _, hlt, hget⟩
      · rw [hbs]; exact hsp
      · rw [← hget]
        exact hf _ (getD_mem_of_lt fields n hlt)
    · intro j hj
      exact Or.inr (hf _ (getD_mem_of_lt fields j hj))

lemma intersectQ_mem (f0 : List Nat) (rest : List (List Nat)) (id : Nat) :
    id ∈ intersectQ (f0 :: rest) ↔ ∀ f ∈ f0 :: rest, id ∈ f := by
  have hinv : PivotInv (f0 :: rest) [] (pickPivot f0 0 1 rest) :=
    pickPivot_spec (f0 :: rest) [] rest 1 f0 0 (by simp)
      (Or.inr ⟨0, rfl, by simp, rfl⟩)
  have hge : 0 ≤ (pickPivot f0 0 1 rest).2 :=
    pickPivot_snd_nonneg rest f0 0 1 (by norm_num)
  simp only [intersectQ]
  generalize hp : pickPivot f0 0 1 rest = p at hinv hge ⊢
  obtain ⟨best, bi⟩ := p
  simp only [PivotInv] at hinv
  rcases hinv with ⟨hbi, _⟩ | ⟨n, hbi, hlt, hget⟩
  · exact absurd hbi (by intro h; rw [h] at hge; norm_num at hge)
  · simp only [List.mem_filter, allFieldsExcept_spec, Nat.zero_add]
    constructor
    · rintro ⟨hbest, hall⟩
      intro f hf
      obtain ⟨j, hj, hgd⟩ := (mem_iff_getD (f0 :: rest) f).mp hf
      rcases hall j hj with h | h
      · have hjn : j = n := by
          rw [hbi] at h
          exact Int.ofNat.inj h
        rw [← hgd, hjn, hget]
        exact hbest
      · rw [← hgd]; exact h
    · intro hf
      refine ⟨?_, ?_⟩
      · rw [← hget]
        exact hf _ (getD_mem_of_lt (f0 :: rest) n hlt)
      · intro j hj
        exact Or.inr (hf _ (getD_mem_of_lt (f0 :: rest) j hj))

/-! The field-search loop: success and failure characterizations. -/

lemma fieldSet_as_lookup (s : DB) (f : String) (v : JSValue)
    (h : (alGet f s.fieldIndexes).isSome = true) :
    fieldSet s f v = (alGet v.toKey ((alGet f s.fieldIndexes).getD [])).getD [] := by
  obtain ⟨m, hm⟩ := (alGet_isSome_iff _ _).mp h
  simp [fieldSet, hm]

lemma fieldSearchLoop_ok (fi : List (String × List (String × List Nat))) :
    ∀ (q : List (String × JSValue)) (acc : List (List Nat)),
      (∀ fv ∈ q, (alGet fv.1 fi).isSome = true) →
      fieldSearchLoop fi q acc =
        (none, acc ++ q.map (fun fv => (alGet fv.2.toKey ((alGet fv.1 fi).getD [])).getD [])) := by
  intro q
  induction q with
  | nil => intro acc _; simp [fieldSearchLoop]
  | cons fv rest ih =>
    intro acc hall
    obtain ⟨f, v⟩ := fv
    have hf : (alGet f fi).isSome = true := hall (f, v) (List.mem_cons_self _ _)
    obtain ⟨m, hm⟩ := (alGet_isSome_iff _ _).mp hf
    simp only [fieldSearchLoop, hm]
    rw [ih (acc ++ [(alGet v.toKey m).getD []])
      (fun fv2 h2 => hall fv2 (List.mem_cons_of_mem _ h2))]
    simp [hm]

lemma fieldSearchLoop_err (fi : List (String × List (String × List Nat))) :
    ∀ (q : List (String × JSValue)) (acc : List (List Nat)) (f : String) (v : JSValue),
      (f, v) ∈ q → alGet f fi = none →
      ∃ acc2, fieldSearchLoop fi q acc = (some Err.typeError, acc2) := by
  intro q
  induction q with
  | nil => intro acc f v h _; simp at h
  | cons fv rest ih =>
    intro acc f v hmem hnone
    obtain ⟨g, w⟩ := fv
    rcases hg : alGet g fi with _ | m
    · exact ⟨acc, by simp [fieldSearchLoop, hg]⟩
    · rcases List.mem_cons.mp hmem with heq | htail
      · have h1 : f = g := congrArg Prod.fst heq
        rw [h1, hg] at hnone
        exact absurd hnone (by simp)
      · obtain ⟨acc2, h2⟩ := ih (acc ++ [(alGet w.toKey m).getD []]) f v htail hnone
        exact ⟨acc2, by simp [fieldSearchLoop, hg, h2]⟩

/-! Resolution: the output buffer as the image of the final id set. -/

lemma resolveIds_toFinset (byId : List (Nat × Entity)) (ids : List Nat) :
    (resolveIds byId ids).toFinset = ids.toFinset.image (fun i => alGet i byId) := by
  ext x
  simp [resolveIds, List.mem_map, Finset.mem_image]

/-! Frame and shape lemmas for `search`. -/

lemma searchE_frame (s : DB) (b : Option Box) (q : Option (List (String × JSValue))) :
    (searchE s b q).db.fieldsToIndex = s.fieldsToIndex ∧
    (searchE s b q).db.fieldIndexes = s.fieldIndexes ∧
    (searchE s b q).db.byId = s.byId ∧
    (searchE s b q).db.spatial = s.spatial := by
  cases b with
  | none =>
    cases q with
    | none => exact ⟨rfl, rfl, rfl, rfl⟩
    | some qq =>
      simp only [searchE]
      rcases hfs : fieldSearchLoop s.fieldIndexes qq [] with ⟨er, acc⟩
      cases er
      · exact ⟨rfl, rfl, rfl, rfl⟩
      · exact ⟨rfl, rfl, rfl, rfl⟩
  | some bb =>
    cases q with
    | none => exact ⟨rfl, rfl, rfl, rfl⟩
    | some qq =>
      simp only [searchE]
      rcases hfs : fieldSearchLoop s.fieldIndexes qq [] with ⟨er, acc⟩
      cases er
      · exact ⟨rfl, rfl, rfl, rfl⟩
      · exact ⟨rfl, rfl, rfl, rfl⟩

lemma searchE_out_eq (s : DB) (b : Option Box) (q : Option (List (String × JSValue))) :
    (searchE s b q).out = resolveIds s.byId (finalIdsOf (searchE s b q)) := by
  cases b with
  | none =>
    cases q with
    | none => rfl
    | some qq =>
      simp only [searchE]
      rcases hfs : fieldSearchLoop s.fieldIndexes qq [] with ⟨er, acc⟩
      cases er
      · rfl
      · simp [finalIdsOf, emptyPool, resolveIds]
  | some bb =>
    cases q with
    | none => rfl
    | some qq =>
      simp only [searchE]
      rcases hfs : fieldSearchLoop s.fieldIndexes qq [] with ⟨er, acc⟩
      cases er
      · rfl
      · simp [finalIdsOf, emptyPool, resolveIds]

lemma searchPlan_err (s : DB) (hb hq : Bool) : (searchPlan s hb hq).err = none := rfl

lemma finalIdsOf_searchPlan_tt (s : DB) (hrr : s.pool.resultReference = none) :
    finalIdsOf (searchPlan s true true) =
      if 0 < s.pool.fields.length ∧ 0 < s.pool.spatial.length
      then intersectBQ s.pool.spatial s.pool.fields
      else s.pool.ids := by
  by_cases hc : 0 < s.pool.fields.length ∧ 0 < s.pool.spatial.length
  · simp only [finalIdsOf, searchPlan]
    rw [if_pos hc]
    simp [hrr]
    rw [if_pos hc]
  · simp only [finalIdsOf, searchPlan]
    rw [if_neg hc]
    simp [hrr]
    rw [if_neg hc]

lemma finalIdsOf_searchPlan_ft (s : DB) (hrr : s.pool.resultReference = none) :
    finalIdsOf (searchPlan s false true) =
      if s.pool.fields.length = 1 then s.pool.fields.headD []
      else if 0 < s.pool.fields.length then intersectQ s.pool.fields
      else s.pool.ids := by
  by_cases h1 : s.pool.fields.length = 1
  · simp only [finalIdsOf, searchPlan]
    rw [if_pos h1]
    simp [hrr]
    rw [if_pos h1]
  · by_cases h2 : 0 < s.pool.fields.length
    · simp only [finalIdsOf, searchPlan]
      rw [if_neg h1, if_pos h2]
      simp [hrr]
      rw [if_neg h1, if_pos h2]
    · simp only [finalIdsOf, searchPlan]
      rw [if_neg h1, if_neg h2]
      simp [hrr]
      rw [if_neg h1, if_neg h2]

lemma searchE_bounds_only (s : DB) (B : Box) :
    (searchE s (some B) none).err = none ∧
    finalIdsOf (searchE s (some B) none) = spatialHits s.spatial B :=
  ⟨rfl, rfl⟩

lemma searchE_bq_eq (s : DB) (B : Box) (q : List (String × JSValue))
    (hloop : fieldSearchLoop s.fieldIndexes q [] =
      (none, [] ++ q.map (fun fv => (alGet fv.2.toKey ((alGet fv.1 s.fieldIndexes).getD [])).getD []))) :
    searchE s (some B) (some q) =
      searchPlan
        { s with pool :=
            { fields := q.map (fun fv => (alGet fv.2.toKey ((alGet fv.1 s.fieldIndexes).getD [])).getD [])
              spatial := spatialHits s.spatial B
              ids := []
              resultReference := none } } true true := by
  simp only [searchE]
  rw [hloop]
  rfl

lemma searchE_q_eq (s : DB) (q : List (String × JSValue))
    (hloop : fieldSearchLoop s.fieldIndexes q [] =
      (none, [] ++ q.map (fun fv => (alGet fv.2.toKey ((alGet fv.1 s.fieldIndexes).getD [])).getD []))) :
    searchE s none (some q) =
      searchPlan
        { s with pool :=
            { fields := q.map (fun fv => (alGet fv.2.toKey ((alGet fv.1 s.fieldIndexes).getD [])).getD [])
              spatial := []
              ids := []
              resultReference := none } } false true := by
  simp only [searchE]
  rw [hloop]
  rfl

lemma searchE_bq_spec (s : DB) (B : Box) (q : List (String × JSValue))
    (hq : ∀ fv ∈ q, (alGet fv.1 s.fieldIndexes).isSome = true) :
    (searchE s (some B) (some q)).err = none ∧
    ∀ x, x ∈ finalIdsOf (searchE s (some B) (some q)) ↔
      (x ∈ spatialHits s.spatial B ∧ q ≠ [] ∧ ∀ fv ∈ q, x ∈ fieldSet s fv.1 fv.2) := by
  rw [searchE_bq_eq s B q (fieldSearchLoop_ok s.fieldIndexes q [] hq)]
  refine ⟨rfl, ?_⟩
  intro x
  rw [finalIdsOf_searchPlan_tt _ rfl]
  simp only [List.length_map]
  split_ifs with hc
  · rw [intersectBQ_mem]
    have hq0 : q ≠ [] := by
      intro h
      subst h
      simp at hc
    constructor
    · rintro ⟨hx1, hx2⟩
      refine ⟨hx1, hq0, fun fv hfv => ?_⟩
      rw [fieldSet_as_lookup s fv.1 fv.2 (hq fv hfv)]
      exact hx2 _ (List.mem_map_of_mem _ hfv)
    · rintro ⟨hx1, _, hx2⟩
      refine ⟨hx1, fun f hf => ?_⟩
      obtain ⟨fv, hfv, hfe⟩ := List.mem_map.mp hf
      rw [← hfe, ← fieldSet_as_lookup s fv.1 fv.2 (hq fv hfv)]
      exact hx2 fv hfv
  · constructor
    · intro hx
      simp at hx
    · rintro ⟨hx1, hq0, _⟩
      refine absurd ⟨?_, ?_⟩ hc
      · simpa [List.length_pos] using hq0
      · exact List.length_pos.mpr (List.ne_nil_of_mem hx1)

lemma searchE_q_spec (s : DB) (q : List (String × JSValue))
    (hq : ∀ fv ∈ q, (alGet fv.1 s.fieldIndexes).isSome = true) :
    (searchE s none (some q)).err = none ∧
    ∀ x, x ∈ finalIdsOf (searchE s none (some q)) ↔
      (q ≠ [] ∧ ∀ fv ∈ q, x ∈ fieldSet s fv.1 fv.2) := by
  rw [searchE_q_eq s q (fieldSearchLoop_ok s.fieldIndexes q [] hq)]
  refine ⟨rfl, ?_⟩
  intro x
  rw [finalIdsOf_searchPlan_ft _ rfl]
  simp only [List.length_map]
  split_ifs with h1 h2
  · obtain ⟨fv, hfv⟩ := List.length_eq_one.mp h1
    subst hfv
    obtain ⟨f, v⟩ := fv
    simp only [List.map_cons, List.map_nil, List.headD_cons]
    rw [← fieldSet_as_lookup s f v (hq (f, v) (List.mem_cons_self _ _))]
    constructor
    · intro hx
      refine ⟨by simp, ?_⟩
      simpa [List.forall_mem_singleton] using hx
    · rintro ⟨_, hall⟩
      simpa [List.forall_mem_singleton] using hall
  · cases q with
    | nil => simp at h2
    | cons fv0 qrest =>
      simp only [List.map_cons]
      rw [intersectQ_mem]
      constructor
      · intro hall
        refine ⟨by simp, fun fv hfv => ?_⟩
        rw [fieldSet_as_lookup s fv.1 fv.2 (hq fv hfv)]
        rcases List.mem_cons.mp hfv with heq | htail
        · subst heq
          exact hall _ (List.mem_cons_self _ _)
        · exact hall _ (List.mem_cons_of_mem _ (List.mem_map_of_mem _ htail))
      · rintro ⟨_, hall⟩
        intro f hf
        rcases List.mem_cons.mp hf with heq | htail
        · rw [heq, ← fieldSet_as_lookup s fv0.1 fv0.2 (hq fv0 (List.mem_cons_self _ _))]
          exact hall fv0 (List.mem_cons_self _ _)
        · obtain ⟨fv, hfv, hfe⟩ := List.mem_map.mp htail
          rw [← hfe, ← fieldSet_as_lookup s fv.1 fv.2 (hq fv (List.mem_cons_of_mem _ hfv))]
          exact hall fv (List.mem_cons_of_mem _ hfv)
  · have hq0 : q = [] := by
      cases q with
      | nil => rfl
      | cons a l => simp at h2
    subst hq0
    simp

/-! Well-formedness unpacking and coverage lemmas. -/

lemma wfB_parts (s : DB) (h : WfB s = true) :
    IdCoherentB s = true ∧ SpatialCoveredB s = true ∧
    FieldCoveredB s = true ∧ FieldsPresentB s = true := by
  simpa [WfB, Bool.and_eq_true, and_assoc] using h

lemma fieldsPresent_lookup (s : DB) (h : FieldsPresentB s = true) (f : String)
    (hf : f ∈ s.fieldsToIndex) : (alGet f s.fieldIndexes).isSome = true := by
  rw [FieldsPresentB, List.all_eq_true] at h
  exact h f hf

lemma coherent_inj (s : DB) (h : IdCoherentB s = true) :
    ∀ i j, (alGet i s.byId).isSome = true → alGet i s.byId = alGet j s.byId → i = j := by
  intro i j hi heq
  obtain ⟨e, he⟩ := (alGet_isSome_iff _ _).mp hi
  have hj : alGet j s.byId = some e := by rw [← heq, he]
  have h1 := alGet_mem i e s.byId he
  have h2 := alGet_mem j e s.byId hj
  rw [IdCoherentB, List.all_eq_true] at h
  have e1 := h _ h1
  have e2 := h _ h2
  simp only [beq_iff_eq] at e1 e2
  rw [← e1, ← e2]

lemma spatial_covered (s : DB) (h : SpatialCoveredB s = true) (b : Box) :
    ∀ i ∈ spatialHits s.spatial b, (alGet i s.byId).isSome = true := by
  intro i hi
  obtain ⟨en, hmem, _, hid⟩ := (spatialHits_mem s.spatial b i).mp hi
  rw [SpatialCoveredB, List.all_eq_true] at h
  rw [← hid]
  exact h en hmem

lemma field_covered (s : DB) (h : FieldCoveredB s = true) (f : String) (v : JSValue) :
    ∀ i ∈ fieldSet s f v, (alGet i s.byId).isSome = true := by
  intro i hi
  rcases hfi : alGet f s.fieldIndexes with _ | m
  · simp [fieldSet, hfi] at hi
  · rcases hk : alGet v.toKey m with _ | st
    · simp [fieldSet, hfi, hk] at hi
    · simp only [fieldSet, hfi, hk, Option.getD_some] at hi
      have hm := alGet_mem f m s.fieldIndexes hfi
      have hks := alGet_mem v.toKey st m hk
      rw [FieldCoveredB, List.all_eq_true] at h
      have h1 := h _ hm
      rw [List.all_eq_true] at h1
      have h2 := h1 _ hks
      rw [List.all_eq_true] at h2
      exact h2 i hi

lemma keysExact_none (s : DB) (hx : KeysExactB s = true) (f : String)
    (hf : f ∉ s.fieldsToIndex) : alGet f s.fieldIndexes = none := by
  rcases h : alGet f s.fieldIndexes with _ | m
  · rfl
  · exfalso
    have hmem := alGet_mem f m s.fieldIndexes h
    rw [KeysExactB, Bool.and_eq_true] at hx
    have h2 := hx.2
    rw [List.all_eq_true] at h2
    have h3 := h2 _ hmem
    simp only [decide_eq_true_eq] at h3
    exact hf h3

lemma image_inter_of_inj (r : Nat → Option Entity) (A Q : Finset Nat)
    (hA : ∀ i ∈ A, (r i).isSome = true)
    (hinj : ∀ i j, (r i).isSome = true → r i = r j → i = j) :
    (A ∩ Q).image r = A.image r ∩ Q.image r := by
  ext x
  simp only [Finset.mem_image, Finset.mem_inter]
  constructor
  · rintro ⟨i, ⟨hiA, hiQ⟩, hx⟩
    exact ⟨⟨i, hiA, hx⟩, ⟨i, hiQ, hx⟩⟩
  · rintro ⟨⟨i, hiA, hix⟩, ⟨j, hjQ, hjx⟩⟩
    have hij : i = j := hinj i j (hA i hiA) (by rw [hix, hjx])
    refine ⟨i, ⟨hiA, ?_⟩, hix⟩
    rw [hij]
    exact hjQ

lemma foldl_inter_mem (g : String × JSValue → Finset (Option Entity)) :
    ∀ (l : List (String × JSValue)) (init : Finset (Option Entity)) (x : Option Entity),
      x ∈ l.foldl (fun acc fv => acc ∩ g fv) init ↔ (x ∈ init ∧ ∀ fv ∈ l, x ∈ g fv) := by
  intro l
  induction l with
  | nil => intro init x; simp
  | cons a l ih =>
    intro init x
    simp only [List.foldl_cons]
    rw [ih]
    simp only [Finset.mem_inter, List.mem_cons]
    constructor
    · rintro ⟨⟨h1, h2⟩, h3⟩
      refine ⟨h1, ?_⟩
      rintro fv (rfl | hfv)
      · exact h2
      · exact h3 fv hfv
    · rintro ⟨h1, h2⟩
      exact ⟨⟨h1, h2 a (Or.inl rfl)⟩, fun fv hfv => h2 fv (Or.inr hfv)⟩

/-! Error propagation of `search` on a non-configured field. -/

lemma searchE_err_of_missing (s : DB) (b : Option Box) (q : List (String × JSValue))
    (f : String) (v : JSValue) (hm : (f, v) ∈ q) (hf : alGet f s.fieldIndexes = none) :
    (searchE s b (some q)).err = some Err.typeError := by
  obtain ⟨acc2, hacc⟩ := fieldSearchLoop_err s.fieldIndexes q [] f v hm hf
  cases b with
  | none =>
    simp only [searchE]
    rw [hacc]
  | some bb =>
    simp only [searchE]
    rw [hacc]

/-! The insert and remove field loops: error behaviour. -/

lemma insertFieldLoop_none (e : Entity) :
    ∀ (fl : List String) (fi : List (String × List (String × List Nat))),
      (∀ f ∈ fl, (alGet f fi).isSome = true) →
      (insertFieldLoop e fl fi).1 = none := by
  intro fl
  induction fl with
  | nil => intro fi _; rfl
  | cons f rest ih =>
    intro fi hall
    obtain ⟨m, hm⟩ := (alGet_isSome_iff _ _).mp (hall f (List.mem_cons_self _ _))
    simp only [insertFieldLoop, hm]
    apply ih
    intro g hg
    rw [alGet_alSet]
    by_cases hgf : g = f
    · simp [hgf]
    · rw [if_neg hgf]
      exact hall g (List.mem_cons_of_mem _ hg)

lemma removeFieldLoop_shape (e : Entity) :
    ∀ (fl : List String) (fi : List (String × List (String × List Nat))),
      (removeFieldLoop e fl fi).1 = none ∨
      (removeFieldLoop e fl fi).1 = some Err.typeError := by
  intro fl
  induction fl with
  | nil => intro fi; left; rfl
  | cons f rest ih =>
    intro fi
    rcases hf : alGet f fi with _ | m
    · right; simp [removeFieldLoop, hf]
    · rcases hk : alGet (attrKey e f) m with _ | st
      · right; simp [removeFieldLoop, hf, hk]
      · simp only [removeFieldLoop, hf, hk]
        exact ih _

lemma insertE_ok (s : DB) (e : Entity) (h : FieldsPresentB s = true) :
    (insertE s e).1 = none ∧ alGet e.id (insertE s e).2.byId = some e := by
  have hloop : (insertFieldLoop e s.fieldsToIndex s.fieldIndexes).1 = none := by
    apply insertFieldLoop_none
    rw [FieldsPresentB, List.all_eq_true] at h
    exact h
  simp only [insertE, insertIntoIdIndex]
  rcases hfl : insertFieldLoop e s.fieldsToIndex s.fieldIndexes with ⟨er, fi⟩
  rw [hfl] at hloop
  simp only at hloop
  subst hloop
  refine ⟨rfl, ?_⟩
  have hset : alGet e.id (alSet e.id e s.byId) = some e := by
    rw [alGet_alSet]
    simp
  exact hset

/-! Congruence of query-only searches across states agreeing on the field
index and the identity store. -/

lemma searchPlan_errout_congr (a b : DB) (hp : a.pool = b.pool) (hid : a.byId = b.byId)
    (hb hq : Bool) :
    (searchPlan a hb hq).err = (searchPlan b hb hq).err ∧
    (searchPlan a hb hq).out = (searchPlan b hb hq).out := by
  refine ⟨rfl, ?_⟩
  simp only [searchPlan]
  rw [hp, hid]

lemma searchE_q_congr (a b : DB) (hfi : a.fieldIndexes = b.fieldIndexes)
    (hid : a.byId = b.byId) (q : List (String × JSValue)) :
    (searchE a none (some q)).err = (searchE b none (some q)).err ∧
    (searchE a none (some q)).out = (searchE b none (some q)).out := by
  simp only [searchE]
  rw [hfi, hid]
  rcases hfs : fieldSearchLoop b.fieldIndexes q [] with ⟨er, sets⟩
  cases er with
  | some er2 => exact ⟨rfl, rfl⟩
  | none =>
    refine ⟨rfl, ?_⟩
    exact (searchPlan_errout_congr _ _ rfl rfl false true).2

/-! Claim theorems. -/

/-- Claim C1: for every engine state satisfying the data-model invariants
and every search call given both bounds B and a field query Q over
configured fields, the set of entities appended to the output buffer is
exactly the set-intersection of the entities that a bounds-only search
would yield and the entities that a query-only search would yield. -/
theorem c1_combined_search_is_intersection (s : DB) (B : Box)
    (q : List (String × JSValue)) (hWf : WfB s = true)
    (hq : ∀ fv ∈ q, fv.1 ∈ s.fieldsToIndex) :
    (searchE s (some B) (some q)).out.toFinset =
      (searchE s (some B) none).out.toFinset ∩
        (searchE s none (some q)).out.toFinset := by
  obtain ⟨hco, hsc, hfc, hfp⟩ := wfB_parts s hWf
  have hq' : ∀ fv ∈ q, (alGet fv.1 s.fieldIndexes).isSome = true :=
    fun fv hfv => fieldsPresent_lookup s hfp fv.1 (hq fv hfv)
  obtain ⟨_, hbq⟩ := searchE_bq_spec s B q hq'
  obtain ⟨_, hqq⟩ := searchE_q_spec s q hq'
  obtain ⟨_, hbo⟩ := searchE_bounds_only s B
  have hids : (finalIdsOf (searchE s (some B) (some q))).toFinset =
      (finalIdsOf (searchE s (some B) none)).toFinset ∩
        (finalIdsOf (searchE s none (some q))).toFinset := by
    ext x
    simp only [List.mem_toFinset, Finset.mem_inter]
    rw [hbq x, hqq x, hbo]
  simp only [searchE_out_eq, resolveIds_toFinset]
  rw [hids]
  apply image_inter_of_inj
  · intro i hi
    rw [List.mem_toFinset, hbo] at hi
    exact spatial_covered s hsc B i hi
  · exact coherent_inj s hco

/-- Witness for C1 at a concrete engine: one indexed field, two entities,
bounds hitting only the animal. -/
theorem c1_witness :
    (searchE dbA (some ⟨0, 0, 6, 6⟩) (some [("type", JSValue.str "animal")])).out.toFinset =
      (searchE dbA (some ⟨0, 0, 6, 6⟩) none).out.toFinset ∩
        (searchE dbA none (some [("type", JSValue.str "animal")])).out.toFinset :=
  c1_combined_search_is_intersection dbA ⟨0, 0, 6, 6⟩ [("type", JSValue.str "animal")]
    (by decide) (by decide)

/-- Claim C2: for every engine state satisfying the data-model invariants
and every multi-field query over configured fields, search yields exactly
the intersection of the single-field result sets; in particular the result
set does not depend on which field's matching set is smallest, since it
always equals that canonical intersection. -/
theorem c2_multifield_is_intersection_of_singles (s : DB) (fv0 : String × JSValue)
    (rest : List (String × JSValue)) (hWf : WfB s = true)
    (hq : ∀ fv ∈ fv0 :: rest, fv.1 ∈ s.fieldsToIndex) :
    (searchE s none (some (fv0 :: rest))).out.toFinset =
      rest.foldl (fun acc fv => acc ∩ (searchE s none (some [fv])).out.toFinset)
        ((searchE s none (some [fv0])).out.toFinset) := by
  obtain ⟨hco, hsc, hfc, hfp⟩ := wfB_parts s hWf
  have hq' : ∀ fv ∈ fv0 :: rest, (alGet fv.1 s.fieldIndexes).isSome = true :=
    fun fv hfv => fieldsPresent_lookup s hfp fv.1 (hq fv hfv)
  have hsingle : ∀ fv, fv ∈ fv0 :: rest → ∀ x,
      x ∈ finalIdsOf (searchE s none (some [fv])) ↔ x ∈ fieldSet s fv.1 fv.2 := by
    intro fv hfv x
    have harg : ∀ fv2 ∈ [fv], (alGet fv2.1 s.fieldIndexes).isSome = true := by
      intro fv2 h2
      rw [List.mem_singleton] at h2
      subst h2
      exact hq' _ hfv
    obtain ⟨_, hs⟩ := searchE_q_spec s [fv] harg
    rw [hs x]
    simp
  have hmulti : ∀ x, x ∈ finalIdsOf (searchE s none (some (fv0 :: rest))) ↔
      ∀ fv ∈ fv0 :: rest, x ∈ fieldSet s fv.1 fv.2 := by
    intro x
    obtain ⟨_, hs⟩ := searchE_q_spec s (fv0 :: rest) hq'
    rw [hs x]
    simp
  simp only [searchE_out_eq, resolveIds_toFinset]
  ext x
  rw [foldl_inter_mem]
  simp only [Finset.mem_image, List.mem_toFinset]
  constructor
  · rintro ⟨i, hi, hx⟩
    rw [hmulti i] at hi
    refine ⟨⟨i, ?_, hx⟩, ?_⟩
    · rw [hsingle fv0 (List.mem_cons_self _ _) i]
      exact hi fv0 (List.mem_cons_self _ _)
    · intro fv hfv
      refine ⟨i, ?_, hx⟩
      rw [hsingle fv (List.mem_cons_of_mem _ hfv) i]
      exact hi fv (List.mem_cons_of_mem _ hfv)
  · rintro ⟨⟨i0, hi0, hx0⟩, hrest⟩
    rw [hsingle fv0 (List.mem_cons_self _ _) i0] at hi0
    have hs0 : (alGet i0 s.byId).isSome = true := field_covered s hfc fv0.1 fv0.2 i0 hi0
    have hall : ∀ fv ∈ fv0 :: rest, i0 ∈ fieldSet s fv.1 fv.2 := by
      intro fv hfv
      rcases List.mem_cons.mp hfv with heq | htail
      · subst heq
        exact hi0
      · obtain ⟨j, hj, hxj⟩ := hrest fv htail
        rw [hsingle fv (List.mem_cons_of_mem _ htail) j] at hj
        have hji : i0 = j := coherent_inj s hco i0 j hs0 (by rw [hx0, hxj])
        rw [hji]
        exact hj
    refine ⟨i0, ?_, hx0⟩
    rw [hmulti i0]
    exact hall

/-- Witness for C2 at a concrete engine: two indexed fields, three
entities, querying type and color together. -/
theorem c2_witness :
    (searchE dbB none
        (some [("type", JSValue.str "animal"), ("color", JSValue.str "black")])).out.toFinset =
      [("color", JSValue.str "black")].foldl
        (fun acc fv => acc ∩ (searchE dbB none (some [fv])).out.toFinset)
        ((searchE dbB none (some [("type", JSValue.str "animal")])).out.toFinset) :=
  c2_multifield_is_intersection_of_singles dbB ("type", JSValue.str "animal")
    [("color", JSValue.str "black")] (by decide) (by decide)

/-- Counterexample to C3 as stated: with one entity inside the bounds, a
search given those bounds and an empty query mapping yields a different
entity set than the bounds-only search (empty versus that entity). -/
theorem c3_counterexample :
    ¬ ((searchE dbC (some ⟨0, 0, 2, 2⟩) (some [])).out.toFinset =
        (searchE dbC (some ⟨0, 0, 2, 2⟩) none).out.toFinset) := by decide

/-- Claim C3 amended: a search called with bounds and a query mapping that
contains zero criteria succeeds but appends nothing at all — the planner's
combined branch requires a non-empty field-slice list, so the spatial
result is discarded rather than taken by direct reference. -/
theorem c3_amended_empty_query_discards_spatial (s : DB) (B : Box) :
    (searchE s (some B) (some [])).err = none ∧
    (searchE s (some B) (some [])).out = [] :=
  ⟨rfl, rfl⟩

/-- Claim C4 evaluated at the failing input: the field index files the
numeric attribute 5 under the string object key, so a query for the text
value "5" returns the entity whose attribute is the number 5. -/
theorem c4_key_coercion_collision :
    (searchE dbD none (some [("f", JSValue.str "5")])).out = [some entD] ∧
    entD.attr "f" = some (JSValue.num 5) := by decide

/-- Counterexample to C5 as stated: with an entity of id 0 already present,
inserting a different entity carrying the same id raises no error at
all — there is no duplicate check. -/
theorem c5_counterexample :
    (alGet entE2.id dbE.byId).isSome = true ∧ (insertE dbE entE2).1 = none := by decide

/-- Claim C5 amended: insert never raises DuplicateIdError; on any state
whose configured fields all have sub-index maps, inserting an entity whose
id is already present succeeds silently and overwrites the identity-store
entry for that id. -/
theorem c5_amended_duplicate_insert_overwrites (s : DB) (e : Entity)
    (h : FieldsPresentB s = true) :
    (insertE s e).1 = none ∧ alGet e.id (insertE s e).2.byId = some e :=
  insertE_ok s e h

/-- Witness for the amended C5 at a concrete engine holding an entity with
id 0: inserting a second entity with id 0 succeeds and overwrites. -/
theorem c5_witness :
    (insertE dbE entE2).1 = none ∧
    alGet entE2.id (insertE dbE entE2).2.byId = some entE2 :=
  c5_amended_duplicate_insert_overwrites dbE entE2 (by decide)

/-- Counterexample to C6 as stated: on an engine with no entity of id 0,
removing and moving an entity with id 0 both complete without any error,
rather than failing with NotFoundError. -/
theorem c6_counterexample :
    alGet entC.id dbF.byId = none ∧
    (removeE dbF entC).1 = none ∧ (moveE dbF entC).1 = none := by decide

/-- Claim C6 amended: neither remove nor move performs a presence check, so
neither ever fails with NotFoundError; move always succeeds and registers
the entity's current box in the spatial index (even for an absent id), and
remove either succeeds silently or fails with a TypeError from a missing
field-index slot. -/
theorem c6_amended_no_notfound (s : DB) (e : Entity) :
    (moveE s e).1 = none ∧
    (⟨e.id, e.box⟩ : SpatialEntry) ∈ (moveE s e).2.spatial ∧
    ((removeE s e).1 = none ∨ (removeE s e).1 = some Err.typeError) := by
  refine ⟨rfl, ?_, ?_⟩
  · simp [moveE]
  · simp only [removeE]
    rcases hfl : removeFieldLoop e s.fieldsToIndex s.fieldIndexes with ⟨er, fi⟩
    have hsh := removeFieldLoop_shape e s.fieldsToIndex s.fieldIndexes
    rw [hfl] at hsh
    cases er with
    | none => exact Or.inl rfl
    | some e2 =>
      rcases hsh with h | h
      · exact Option.noConfusion h
      · have h2 : e2 = Err.typeError := Option.some.inj h
        subst h2
        exact Or.inr rfl

/-- Counterexample to C7 as stated: querying a non-configured field fails,
but with a generic TypeError from reading a property of undefined, not
with a dedicated UnknownFieldError. -/
theorem c7_counterexample :
    (searchE dbF none (some [("f", JSValue.num 1)])).err = some Err.typeError ∧
    (searchE dbF none (some [("f", JSValue.num 1)])).err ≠ some Err.unknownFieldError := by
  decide

/-- Claim C7 amended: for every engine state whose sub-index maps are
exactly the configured fields (including the empty configuration), a search
whose query mentions a non-configured field name fails — with a generic
TypeError rather than a dedicated UnknownFieldError class. -/
theorem c7_amended_unknown_field_raises_type_error (s : DB) (b : Option Box)
    (q : List (String × JSValue)) (f : String) (v : JSValue)
    (hx : KeysExactB s = true) (hf : f ∉ s.fieldsToIndex) (hm : (f, v) ∈ q) :
    (searchE s b (some q)).err = some Err.typeError :=
  searchE_err_of_missing s b q f v hm (keysExact_none s hx f hf)

/-- Witness for the amended C7 on the empty-configuration engine. -/
theorem c7_witness :
    (searchE dbF none (some [("f", JSValue.num 1)])).err = some Err.typeError :=
  c7_amended_unknown_field_raises_type_error dbF none [("f", JSValue.num 1)] "f"
    (JSValue.num 1) (by decide) (by decide) (by decide)

/-- Counterexample to C8 as stated: removing an entity whose a-value slot
exists but whose b-value slot does not fails with a TypeError after it has
already deleted the identity-store entry and mutated the a-field set, so a
failing call leaves the indexes changed. -/
theorem c8_counterexample :
    (removeE dbG entG').1 = some Err.typeError ∧ (removeE dbG entG').2 ≠ dbG := by decide

/-- Claim C8 amended: on states whose configured fields all have sub-index
maps, insert and move never fail, all and nuke are total, and search leaves
the identity store, field index, and spatial index unchanged even when it
fails — but remove is excluded: it can fail having already deleted the
identity-store entry and mutated earlier field-index sets. -/
theorem c8_amended_atomicity_except_remove (s : DB) (e : Entity) (b : Option Box)
    (q : Option (List (String × JSValue))) (h : FieldsPresentB s = true) :
    (insertE s e).1 = none ∧ (moveE s e).1 = none ∧
    (searchE s b q).db.byId = s.byId ∧
    (searchE s b q).db.fieldIndexes = s.fieldIndexes ∧
    (searchE s b q).db.spatial = s.spatial := by
  obtain ⟨h1, _⟩ := insertE_ok s e h
  obtain ⟨hf1, hf2, hf3, hf4⟩ := searchE_frame s b q
  exact ⟨h1, rfl, hf3, hf2, hf4⟩

/-- Witness for the amended C8 at a concrete engine and calls. -/
theorem c8_witness :
    (insertE dbE entE2).1 = none ∧ (moveE dbE entE2).1 = none ∧
    (searchE dbE (some ⟨0, 0, 1, 1⟩) (some [("f", JSValue.num 1)])).db.byId = dbE.byId ∧
    (searchE dbE (some ⟨0, 0, 1, 1⟩) (some [("f", JSValue.num 1)])).db.fieldIndexes =
      dbE.fieldIndexes ∧
    (searchE dbE (some ⟨0, 0, 1, 1⟩) (some [("f", JSValue.num 1)])).db.spatial = dbE.spatial :=
  c8_amended_atomicity_except_remove dbE entE2 (some ⟨0, 0, 1, 1⟩)
    (some [("f", JSValue.num 1)]) (by decide)

/-- Claim C9: moving a stored entity leaves the identity store and every
field-index mapping unchanged, and any field-only search yields the same
error and the same output before and after the move. -/
theorem c9_move_preserves_field_queries (s : DB) (e : Entity)
    (q : List (String × JSValue)) (h : (alGet e.id s.byId).isSome = true) :
    (moveE s e).2.byId = s.byId ∧
    (moveE s e).2.fieldIndexes = s.fieldIndexes ∧
    (searchE (moveE s e).2 none (some q)).err = (searchE s none (some q)).err ∧
    (searchE (moveE s e).2 none (some q)).out = (searchE s none (some q)).out := by
  obtain ⟨he, ho⟩ := searchE_q_congr (moveE s e).2 s rfl rfl q
  exact ⟨rfl, rfl, he, ho⟩

/-- Witness for C9: moving the stored entity of id 0 to a new box leaves a
field query's outcome unchanged. -/
theorem c9_witness :
    (moveE dbC entCmoved).2.byId = dbC.byId ∧
    (moveE dbC entCmoved).2.fieldIndexes = dbC.fieldIndexes ∧
    (searchE (moveE dbC entCmoved).2 none (some [("f", JSValue.str "x")])).err =
      (searchE dbC none (some [("f", JSValue.str "x")])).err ∧
    (searchE (moveE dbC entCmoved).2 none (some [("f", JSValue.str "x")])).out =
      (searchE dbC none (some [("f", JSValue.str "x")])).out :=
  c9_move_preserves_field_queries dbC entCmoved [("f", JSValue.str "x")] (by decide)

/-- Claim C10: search is read-only on the persistent indexes — for every
state and every combination of bounds and query, the identity store, the
field index, the spatial index, and the configuration are identical before
and after the call. -/
theorem c10_search_readonly (s : DB) (b : Option Box)
    (q : Option (List (String × JSValue))) :
    (searchE s b q).db.byId = s.byId ∧
    (searchE s b q).db.fieldIndexes = s.fieldIndexes ∧
    (searchE s b q).db.spatial = s.spatial ∧
    (searchE s b q).db.fieldsToIndex = s.fieldsToIndex := by
  obtain ⟨h1, h2, h3, h4⟩ := searchE_frame s b q
  exact ⟨h3, h2, h4, h1⟩

end GameSpace
